import Mathlib
set_option maxHeartbeats 1000000


/-!
Shallow embedding of the VirtualChatList virtualization engine of the
ai-chat repository (packages/ai-chat-pc/src/components/VirtualChatList):
the height cache of useMessageHeight.ts, the window computation of the
VirtualChatList component (totalHeight, getStartIndex, getEndIndex,
getOffsetY), the rafThrottle scheduler of utils/debugHelper.ts, and the
scroll / auto-scroll event handling of the component, modelled as a small
step function over an explicit state.
-/

/-- JavaScript number values relevant to the height cache: NaN, the two
infinite values, and finite values (modelled as rationals). -/
inductive JSNum where
  | nan : JSNum
  | posInf : JSNum
  | negInf : JSNum
  | num : ℚ → JSNum
deriving DecidableEq

/-- JS truthiness on numbers: NaN and 0 are falsy, every other number is
truthy. -/
def JSNum.isFalsy : JSNum → Bool
  | .nan => true
  | .num q => decide (q = 0)
  | _ => false

/-- JS strict equality on numbers: NaN is not strictly equal to anything,
including itself; all other numbers compare by value. -/
def jsStrictEq : JSNum → JSNum → Bool
  | .nan, _ => false
  | _, .nan => false
  | .posInf, .posInf => true
  | .negInf, .negInf => true
  | .num p, .num q => decide (p = q)
  | _, _ => false

/-- JS strict equality between a possibly absent stored value (undefined
when absent) and a number: undefined is never strictly equal to a number. -/
def jsStrictEqOpt : Option JSNum → JSNum → Bool
  | none, _ => false
  | some a, b => jsStrictEq a b

/-- Invalid height report in the sense of the specification: nonpositive
or not finite. -/
def invalidHeight : JSNum → Bool
  | .nan => true
  | .posInf => true
  | .negInf => true
  | .num q => decide (q ≤ 0)

/-- Model of Map.prototype.set on an index-keyed map represented as a
function to Option. -/
def mapSet {α : Type} (cache : ℕ → Option α) (index : ℕ) (v : α) : ℕ → Option α :=
  fun j => if j = index then some v else cache j

/-- getItemSize of useMessageHeight.ts: heightCache.current.get(index)
with falsy fallback to defaultHeight (the source reads
cache.get(index) followed by the or-else operator with defaultHeight, so an
absent entry and every falsy stored value coalesce to the default). -/
def getItemSize (cache : ℕ → Option JSNum) (defaultHeight : JSNum) (index : ℕ) : JSNum :=
  match cache index with
  | none => defaultHeight
  | some h => if h.isFalsy = true then defaultHeight else h

/-- setItemSize of useMessageHeight.ts: the source stores the size whenever
it is strictly unequal to the currently stored value; written here in
contrapositive form, it keeps the cache when the current value is strictly
equal to the new one and stores the new value otherwise. -/
def setItemSize (cache : ℕ → Option JSNum) (index : ℕ) (size : JSNum) : ℕ → Option JSNum :=
  if jsStrictEqOpt (cache index) size = true then cache else mapSet cache index size

/-- Restriction of getItemSize to finite heights. The window computation
and the engine only add and compare heights, so they are stated over ℤ,
which lets every concrete scenario evaluate inside the kernel; among finite
numbers the only falsy value is 0. -/
def qGetItemSize (cache : ℕ → Option ℤ) (defaultHeight : ℤ) (index : ℕ) : ℤ :=
  match cache index with
  | none => defaultHeight
  | some h => if h = 0 then defaultHeight else h

/-- Restriction of setItemSize to finite heights: strict equality against a
possibly absent stored value becomes equality of options. -/
def qSetItemSize (cache : ℕ → Option ℤ) (index : ℕ) (size : ℤ) : ℕ → Option ℤ :=
  if cache index = some size then cache else mapSet cache index size

/-- getOffsetY of the VirtualChatList component: running sum of the item
heights of indices below k (the loop adds getItemSize(i) for i from 0 to
startIndex − 1). -/
def getOffsetY (gs : ℕ → ℤ) : ℕ → ℤ
  | 0 => 0
  | k + 1 => getOffsetY gs k + gs k

/-- totalHeight of the VirtualChatList component: sum of the heights of all
n items (the loop adds getItemSize(i) for i from 0 to n − 1). -/
def totalHeight (gs : ℕ → ℤ) : ℕ → ℤ
  | 0 => 0
  | k + 1 => totalHeight gs k + gs k

/-- Loop of getStartIndex: fuel r counts the remaining iterations, i is the
current index, sum the running height sum below i. When the running sum
plus the current height exceeds scrollTop the loop returns
max(0, i − buffer); when the loop exhausts the items it returns
max(0, length − 1 − buffer), and at exhaustion i equals the length. -/
def startScan (gs : ℕ → ℤ) (scrollTop : ℤ) (buffer : ℕ) : ℕ → ℕ → ℤ → ℤ
  | 0, i, _ => max 0 ((i : ℤ) - 1 - (buffer : ℤ))
  | r + 1, i, sum =>
      if scrollTop < sum + gs i then max 0 ((i : ℤ) - (buffer : ℤ))
      else startScan gs scrollTop buffer r (i + 1) (sum + gs i)

/-- getStartIndex of the VirtualChatList component. -/
def getStartIndex (gs : ℕ → ℤ) (n : ℕ) (scrollTop : ℤ) (buffer : ℕ) : ℤ :=
  startScan gs scrollTop buffer n 0 0

/-- Loop of getEndIndex: the loop first adds the current height to the
running sum and returns min(length − 1, i + buffer) as soon as the sum
exceeds scrollTop + height; when the loop exhausts the items it returns
length − 1. -/
def endScan (gs : ℕ → ℤ) (limit : ℤ) (n buffer : ℕ) : ℕ → ℕ → ℤ → ℤ
  | 0, _, _ => (n : ℤ) - 1
  | r + 1, i, sum =>
      if limit < sum + gs i then min ((n : ℤ) - 1) ((i : ℤ) + (buffer : ℤ))
      else endScan gs limit n buffer r (i + 1) (sum + gs i)

/-- getEndIndex of the VirtualChatList component. -/
def getEndIndex (gs : ℕ → ℤ) (n : ℕ) (scrollTop viewport : ℤ) (buffer : ℕ) : ℤ :=
  endScan gs (scrollTop + viewport) n buffer n 0 0

/-- State of one rafThrottle closure from utils/debugHelper.ts: rafId holds
the arguments captured when the animation-frame callback was scheduled
(absent when no frame is scheduled); applied records, in order, the values
the wrapped function has actually been invoked with. -/
structure RafState (α : Type) where
  rafId : Option α
  applied : List α

/-- Invoking the rafThrottle wrapper: when a frame is already scheduled the
call returns at once and the new arguments are dropped; otherwise a frame
is scheduled capturing the current arguments. -/
def rafThrottleCall {α : Type} (st : RafState α) (x : α) : RafState α :=
  match st.rafId with
  | some _ => st
  | none => { st with rafId := some x }

/-- The scheduled animation frame runs: the wrapped function is applied to
the captured arguments and rafId is cleared. -/
def rafFrameFire {α : Type} (st : RafState α) : RafState α :=
  match st.rafId with
  | some x => { rafId := none, applied := st.applied ++ [x] }
  | none => st

/-- External events driving the VirtualChatList component: a new message
appended to the list, a height report from a MessageItem, a scroll sample
from the container (whether caused by the user or by the component writing
scrollTop itself), a display-refresh frame running the queued
requestAnimationFrame callbacks, and the 500 ms settle timer firing. -/
inductive EngineEvent where
  | append : EngineEvent
  | report : ℕ → ℤ → EngineEvent
  | scrollSample : ℤ → EngineEvent
  | frameFire : EngineEvent
  | settleFire : EngineEvent

/-- Reactive state of the VirtualChatList component: n is
messages.length, cache the height cache ref, isUserScrolling the state
flag of the same name, scrollTop the React state used by the window
computation, domScrollTop the actual scroll position of the container,
rafPending the argument captured by the RAF-throttled setScrollTop,
autoScrollPending a queued scroll-to-bottom frame callback, settlePending
an armed settle timer, and directives the list of applied programmatic
scroll targets, in order. -/
structure EngineState where
  n : ℕ
  cache : ℕ → Option ℤ
  isUserScrolling : Bool
  scrollTop : ℤ
  domScrollTop : ℤ
  rafPending : Option ℤ
  autoScrollPending : Bool
  settlePending : Bool
  directives : List ℤ

/-- One step of the component, directly from the source handlers: append
runs the effect keyed on messages.length and isUserScrolling, which
schedules a scroll-to-bottom frame whenever the component is mounted, the
list is nonempty and isUserScrolling is false; report runs
handleHeightChange, which writes the cache through setItemSize and, for the
last index while isUserScrolling is false, schedules a scroll-to-bottom
frame; scrollSample runs handleScroll, which feeds the RAF-throttled
setScrollTop, sets isUserScrolling to true and rearms the settle timer;
frameFire runs the queued frame callbacks, applying the throttled
setScrollTop and, when a scroll-to-bottom is queued, writing the container
scrollTop to the spacer height max(0, totalHeight − viewport) (the spacer
div has height totalHeight, and the browser clamps an assignment of
scrollHeight to scrollHeight − clientHeight); settleFire runs the 500 ms
timer body, which clears isUserScrolling when the offset is within 10 px of
the bottom, whereupon the effect keyed on isUserScrolling reruns and
schedules a scroll-to-bottom on a nonempty list. -/
def step (viewport defaultHeight : ℤ) (st : EngineState) : EngineEvent → EngineState
  | EngineEvent.append =>
      let st1 : EngineState := { st with n := st.n + 1 }
      if st1.isUserScrolling = false ∧ 0 < st1.n then { st1 with autoScrollPending := true }
      else st1
  | EngineEvent.report index h =>
      let st1 : EngineState := { st with cache := qSetItemSize st.cache index h }
      if (index : ℤ) = (st1.n : ℤ) - 1 ∧ st1.isUserScrolling = false then
        { st1 with autoScrollPending := true }
      else st1
  | EngineEvent.scrollSample sample =>
      { st with
          domScrollTop := sample
          rafPending := (match st.rafPending with
            | none => some sample
            | some x => some x)
          isUserScrolling := true
          settlePending := true }
  | EngineEvent.frameFire =>
      let st1 : EngineState :=
        match st.rafPending with
        | some x => { st with scrollTop := x, rafPending := none }
        | none => st
      if st1.autoScrollPending = true then
        { st1 with
            domScrollTop := max 0 (totalHeight (qGetItemSize st1.cache defaultHeight) st1.n - viewport)
            autoScrollPending := false
            directives := st1.directives ++
              [max 0 (totalHeight (qGetItemSize st1.cache defaultHeight) st1.n - viewport)] }
      else st1
  | EngineEvent.settleFire =>
      if st.settlePending = true then
        if totalHeight (qGetItemSize st.cache defaultHeight) st.n - st.domScrollTop - viewport < 10 then
          if st.isUserScrolling = true ∧ 0 < st.n then
            { st with isUserScrolling := false, settlePending := false, autoScrollPending := true }
          else { st with isUserScrolling := false, settlePending := false }
        else { st with settlePending := false }
      else st

/-- Fold of step over a list of events. -/
def run (viewport defaultHeight : ℤ) : EngineState → List EngineEvent → EngineState
  | st, [] => st
  | st, e :: es => run viewport defaultHeight (step viewport defaultHeight st e) es

/-- State of a freshly mounted component with an empty message list:
isUserScrolling starts false (the feed starts pinned), the cache is empty,
nothing is scheduled. -/
def initState : EngineState where
  n := 0
  cache := fun _ => none
  isUserScrolling := false
  scrollTop := 0
  domScrollTop := 0
  rafPending := none
  autoScrollPending := false
  settlePending := false
  directives := []

/-- Strict equality of JS numbers implies structural equality. -/
theorem jsStrictEq_eq {a b : JSNum} (h : jsStrictEq a b = true) : a = b := by
  cases a <;> cases b <;> simp_all [jsStrictEq]

/-- After setItemSize, the stored value at the written index is exactly the
size passed: either it was stored, or it was strictly equal to the stored
value already. -/
theorem setItemSize_get (cache : ℕ → Option JSNum) (i : ℕ) (h : JSNum) :
    setItemSize cache i h i = some h := by
  unfold setItemSize
  by_cases he : jsStrictEqOpt (cache i) h = true
  · rw [if_pos he]
    cases hc : cache i with
    | none => rw [hc] at he; simp [jsStrictEqOpt] at he
    | some current =>
        rw [hc] at he
        simp only [jsStrictEqOpt] at he
        rw [jsStrictEq_eq he]
  · rw [if_neg he]
    simp [mapSet]

/-- After qSetItemSize, the stored value at the written index is exactly
the size passed. -/
theorem qSetItemSize_get (cache : ℕ → Option ℤ) (i : ℕ) (h : ℤ) :
    qSetItemSize cache i h i = some h := by
  unfold qSetItemSize
  by_cases he : cache i = some h
  · rw [if_pos he, he]
  · rw [if_neg he]
    simp [mapSet]

/-- Unfolding lemma for the running sum. -/
theorem getOffsetY_succ (gs : ℕ → ℤ) (k : ℕ) :
    getOffsetY gs (k + 1) = getOffsetY gs k + gs k := rfl

/-- totalHeight is the running sum taken at the item count. -/
theorem totalHeight_eq_getOffsetY (gs : ℕ → ℤ) (k : ℕ) :
    totalHeight gs k = getOffsetY gs k := by
  induction k with
  | zero => rfl
  | succ k ih => simp [totalHeight, getOffsetY, ih]

/-- The running sum is the finite sum of the heights below k. -/
theorem getOffsetY_eq_sum (gs : ℕ → ℤ) (k : ℕ) :
    getOffsetY gs k = (Finset.range k).sum gs := by
  induction k with
  | zero => simp [getOffsetY]
  | succ k ih => rw [getOffsetY_succ, Finset.sum_range_succ, ih]

/-- When the first index m at which the inclusive running sum exceeds
scrollTop lies in the scanned range, the start scan returns
max(0, m − buffer). -/
theorem startScan_found (gs : ℕ → ℤ) (s : ℤ) (b : ℕ) :
    ∀ r i m : ℕ, i ≤ m → m < i + r → s < getOffsetY gs (m + 1) →
      (∀ j : ℕ, i ≤ j → j < m → ¬ s < getOffsetY gs (j + 1)) →
      startScan gs s b r i (getOffsetY gs i) = max 0 ((m : ℤ) - (b : ℤ)) := by
  intro r
  induction r with
  | zero =>
      intro i m him hmr _ _
      exact absurd hmr (by omega)
  | succ r ih =>
      intro i m him hmr hcross hmin
      by_cases hc : s < getOffsetY gs i + gs i
      · have him2 : i = m := by
          by_contra hne
          have hlt : i < m := by omega
          have := hmin i le_rfl hlt
          rw [getOffsetY_succ] at this
          exact this hc
        subst him2
        simp [startScan, hc]
      · have hne : i ≠ m := by
          intro he
          subst he
          rw [getOffsetY_succ] at hcross
          exact hc hcross
        have hstep : startScan gs s b (r + 1) i (getOffsetY gs i) =
            startScan gs s b r (i + 1) (getOffsetY gs (i + 1)) := by
          simp [startScan, hc, getOffsetY_succ]
        rw [hstep]
        exact ih (i + 1) m (by omega) (by omega) hcross
          (fun j hj1 hj2 => hmin j (by omega) hj2)

/-- When no index in the scanned range makes the inclusive running sum
exceed scrollTop, the start scan falls through to
max(0, i + r − 1 − buffer). -/
theorem startScan_none (gs : ℕ → ℤ) (s : ℤ) (b : ℕ) :
    ∀ r i : ℕ, (∀ j : ℕ, i ≤ j → j < i + r → ¬ s < getOffsetY gs (j + 1)) →
      startScan gs s b r i (getOffsetY gs i) = max 0 ((i : ℤ) + (r : ℤ) - 1 - (b : ℤ)) := by
  intro r
  induction r with
  | zero => intro i _; simp [startScan]
  | succ r ih =>
      intro i hmin
      have hc : ¬ s < getOffsetY gs i + gs i := by
        have := hmin i le_rfl (by omega)
        rw [getOffsetY_succ] at this
        exact this
      have hstep : startScan gs s b (r + 1) i (getOffsetY gs i) =
          startScan gs s b r (i + 1) (getOffsetY gs (i + 1)) := by
        simp [startScan, hc, getOffsetY_succ]
      rw [hstep, ih (i + 1) (fun j hj1 hj2 => hmin j (by omega) (by omega))]
      congr 1
      push_cast
      ring

/-- When the first index m at which the inclusive running sum exceeds the
limit lies in the scanned range, the end scan returns
min(n − 1, m + buffer). -/
theorem endScan_found (gs : ℕ → ℤ) (L : ℤ) (n b : ℕ) :
    ∀ r i m : ℕ, i ≤ m → m < i + r → L < getOffsetY gs (m + 1) →
      (∀ j : ℕ, i ≤ j → j < m → ¬ L < getOffsetY gs (j + 1)) →
      endScan gs L n b r i (getOffsetY gs i) = min ((n : ℤ) - 1) ((m : ℤ) + (b : ℤ)) := by
  intro r
  induction r with
  | zero =>
      intro i m him hmr _ _
      exact absurd hmr (by omega)
  | succ r ih =>
      intro i m him hmr hcross hmin
      by_cases hc : L < getOffsetY gs i + gs i
      · have him2 : i = m := by
          by_contra hne
          have hlt : i < m := by omega
          have := hmin i le_rfl hlt
          rw [getOffsetY_succ] at this
          exact this hc
        subst him2
        simp [endScan, hc]
      · have hne : i ≠ m := by
          intro he
          subst he
          rw [getOffsetY_succ] at hcross
          exact hc hcross
        have hstep : endScan gs L n b (r + 1) i (getOffsetY gs i) =
            endScan gs L n b r (i + 1) (getOffsetY gs (i + 1)) := by
          simp [endScan, hc, getOffsetY_succ]
        rw [hstep]
        exact ih (i + 1) m (by omega) (by omega) hcross
          (fun j hj1 hj2 => hmin j (by omega) hj2)

/-- When no index in the scanned range makes the inclusive running sum
exceed the limit, the end scan falls through to n − 1. -/
theorem endScan_none (gs : ℕ → ℤ) (L : ℤ) (n b : ℕ) :
    ∀ r i : ℕ, (∀ j : ℕ, i ≤ j → j < i + r → ¬ L < getOffsetY gs (j + 1)) →
      endScan gs L n b r i (getOffsetY gs i) = (n : ℤ) - 1 := by
  intro r
  induction r with
  | zero => intro i _; simp [endScan]
  | succ r ih =>
      intro i hmin
      have hc : ¬ L < getOffsetY gs i + gs i := by
        have := hmin i le_rfl (by omega)
        rw [getOffsetY_succ] at this
        exact this
      have hstep : endScan gs L n b (r + 1) i (getOffsetY gs i) =
          endScan gs L n b r (i + 1) (getOffsetY gs (i + 1)) := by
        simp [endScan, hc, getOffsetY_succ]
      rw [hstep]
      exact ih (i + 1) (fun j hj1 hj2 => hmin j (by omega) (by omega))

/-- Claim C1 (counterexample): in the concrete scenario with default item
height 120, buffer 3, viewport 600, 10 unmeasured items and scroll offset
0, the computed endIndex is 8, not 7 as claimed: index 4 reaches a running
sum of exactly 600, which does not strictly exceed scrollTop + viewport,
so the scan stops at index 5 and adds the buffer. -/
theorem C1_counterexample :
    getEndIndex (qGetItemSize (fun _ => none) 120) 10 0 600 3 = 8 ∧
    getEndIndex (qGetItemSize (fun _ => none) 120) 10 0 600 3 ≠ 7 := by
  decide

/-- Claim C1 (amended): in the concrete scenario with default item height
120, buffer 3, viewport 600, 10 unmeasured items and scroll offset 0, the
window computation returns startIndex = 0, endIndex = 8 and
totalHeight = 1200. -/
theorem C1_amended :
    getStartIndex (qGetItemSize (fun _ => none) 120) 10 0 3 = 0 ∧
    getEndIndex (qGetItemSize (fun _ => none) 120) 10 0 600 3 = 8 ∧
    totalHeight (qGetItemSize (fun _ => none) 120) 10 = 1200 := by
  decide

/-- Claim C7: for a positive item count and a scroll offset below the total
height, the computed startIndex equals max(0, m − buffer) where m is the
smallest index at which the inclusive running sum of the heights exceeds
the scroll offset. -/
theorem C7_startIndex_spec (gs : ℕ → ℤ) (n : ℕ) (s : ℤ) (b m : ℕ)
    (hn : 0 < n) (hs : 0 ≤ s) (hst : s < totalHeight gs n)
    (hm : s < getOffsetY gs (m + 1))
    (hmin : ∀ j : ℕ, j < m → ¬ s < getOffsetY gs (j + 1)) :
    getStartIndex gs n s b = max 0 ((m : ℤ) - (b : ℤ)) := by
  have hoff : s < getOffsetY gs n := by
    rw [← totalHeight_eq_getOffsetY]
    exact hst
  have hmn : m < n := by
    by_contra hle
    push_neg at hle
    have h1 : n - 1 < m := by omega
    have h2 := hmin (n - 1) h1
    have h3 : n - 1 + 1 = n := by omega
    rw [h3] at h2
    exact h2 hoff
  have h0 : getOffsetY gs 0 = 0 := rfl
  have := startScan_found gs s b n 0 m (Nat.zero_le m) (by omega) hm
    (fun j _ hj2 => hmin j hj2)
  rw [h0] at this
  exact this

/-- Witness for C7 at the concrete scenario: 10 items of height 120,
scroll offset 0, buffer 3, minimal crossing index 0. -/
theorem C7_witness :
    (0 < 10 ∧ (0 : ℤ) ≤ 0 ∧ (0 : ℤ) < totalHeight (fun _ => (120 : ℤ)) 10 ∧
      (0 : ℤ) < getOffsetY (fun _ => (120 : ℤ)) (0 + 1)) ∧
    getStartIndex (fun _ => (120 : ℤ)) 10 0 3 = max 0 ((0 : ℤ) - (3 : ℤ)) :=
  ⟨⟨by decide, by decide, by decide, by decide⟩,
    C7_startIndex_spec (fun _ => (120 : ℤ)) 10 0 3 0 (by decide) (by decide)
      (by decide) (by decide) (fun j hj => absurd hj (Nat.not_lt_zero j))⟩

/-- Claim C8: the offsetY computed for the window equals the sum of the
item heights of indices below the computed startIndex. -/
theorem C8_offsetY_eq_sum (cache : ℕ → Option ℤ) (d : ℤ) (n : ℕ) (s : ℤ) (b : ℕ) :
    getOffsetY (qGetItemSize cache d) (getStartIndex (qGetItemSize cache d) n s b).toNat =
      (Finset.range (getStartIndex (qGetItemSize cache d) n s b).toNat).sum
        (qGetItemSize cache d) :=
  getOffsetY_eq_sum (qGetItemSize cache d) (getStartIndex (qGetItemSize cache d) n s b).toNat

/-- Claim C9: the computed window always satisfies startIndex ≤ endIndex
when the list is nonempty; on the empty list the computed indices are the
sentinels 0 and −1, selecting an empty slice, and totalHeight is 0. -/
theorem C9_window_invariant (gs : ℕ → ℤ) (n : ℕ) (s v : ℤ) (b : ℕ) (hv : 0 ≤ v) :
    (n = 0 ∧ getStartIndex gs n s b = 0 ∧ getEndIndex gs n s v b = -1 ∧
      totalHeight gs n = 0) ∨
    getStartIndex gs n s b ≤ getEndIndex gs n s v b := by
  rcases Nat.eq_zero_or_pos n with hn | hn
  · subst hn
    left
    refine ⟨rfl, ?_, ?_, rfl⟩
    · show startScan gs s b 0 0 0 = 0
      simp [startScan]
      omega
    · show endScan gs (s + v) 0 b 0 0 0 = -1
      simp [endScan]
  · right
    have h0 : getOffsetY gs 0 = 0 := rfl
    by_cases hcs : ∃ j : ℕ, j < n ∧ s < getOffsetY gs (j + 1)
    · have hm1 := Nat.find_spec hcs
      have hm1n : Nat.find hcs < n := hm1.1
      have hm1c : s < getOffsetY gs (Nat.find hcs + 1) := hm1.2
      have hm1min : ∀ j : ℕ, j < Nat.find hcs → ¬ s < getOffsetY gs (j + 1) := by
        intro j hj hcj
        exact Nat.find_min hcs hj ⟨by omega, hcj⟩
      have hstart : getStartIndex gs n s b = max 0 ((Nat.find hcs : ℤ) - (b : ℤ)) := by
        have := startScan_found gs s b n 0 (Nat.find hcs) (Nat.zero_le _) (by omega) hm1c
          (fun j _ hj2 => hm1min j hj2)
        rw [h0] at this
        exact this
      by_cases hcv : ∃ j : ℕ, j < n ∧ s + v < getOffsetY gs (j + 1)
      · have hm2 := Nat.find_spec hcv
        have hm2n : Nat.find hcv < n := hm2.1
        have hm2c : s + v < getOffsetY gs (Nat.find hcv + 1) := hm2.2
        have hm2min : ∀ j : ℕ, j < Nat.find hcv → ¬ s + v < getOffsetY gs (j + 1) := by
          intro j hj hcj
          exact Nat.find_min hcv hj ⟨by omega, hcj⟩
        have hend : getEndIndex gs n s v b =
            min ((n : ℤ) - 1) ((Nat.find hcv : ℤ) + (b : ℤ)) := by
          have := endScan_found gs (s + v) n b n 0 (Nat.find hcv) (Nat.zero_le _)
            (by omega) hm2c (fun j _ hj2 => hm2min j hj2)
          rw [h0] at this
          exact this
        have hm12 : Nat.find hcs ≤ Nat.find hcv := by
          apply Nat.find_min' hcs
          exact ⟨hm2n, lt_of_le_of_lt (le_add_of_nonneg_right hv) hm2c⟩
        rw [hstart, hend]
        refine le_min (max_le ?_ ?_) (max_le ?_ ?_) <;> omega
      · push_neg at hcv
        have hend : getEndIndex gs n s v b = (n : ℤ) - 1 := by
          have := endScan_none gs (s + v) n b n 0
            (fun j _ hj2 => not_lt.mpr (hcv j (by omega)))
          rw [h0] at this
          exact this
        rw [hstart, hend]
        refine max_le ?_ ?_ <;> omega
    · push_neg at hcs
      have hstart : getStartIndex gs n s b = max 0 ((0 : ℤ) + (n : ℤ) - 1 - (b : ℤ)) := by
        have := startScan_none gs s b n 0 (fun j _ hj2 => not_lt.mpr (hcs j (by omega)))
        rw [h0] at this
        exact this
      have hend : getEndIndex gs n s v b = (n : ℤ) - 1 := by
        have := endScan_none gs (s + v) n b n 0
          (fun j _ hj2 => not_lt.mpr (le_trans (hcs j (by omega)) (le_add_of_nonneg_right hv)))
        rw [h0] at this
        exact this
      rw [hstart, hend]
      refine max_le ?_ ?_ <;> omega

/-- Witness for C9 at the concrete scenario: 10 items of height 120,
viewport 600, buffer 3, scroll offset 0. -/
theorem C9_witness :
    (0 : ℤ) ≤ 600 ∧
    ((10 = 0 ∧ getStartIndex (fun _ => (120 : ℤ)) 10 0 3 = 0 ∧
        getEndIndex (fun _ => (120 : ℤ)) 10 0 600 3 = -1 ∧
        totalHeight (fun _ => (120 : ℤ)) 10 = 0) ∨
      getStartIndex (fun _ => (120 : ℤ)) 10 0 3 ≤
        getEndIndex (fun _ => (120 : ℤ)) 10 0 600 3) :=
  ⟨by decide, C9_window_invariant (fun _ => (120 : ℤ)) 10 0 600 3 (by decide)⟩

/-- Claim C3 (counterexample): the setter does not reject invalid heights.
Setting height −5 at an unmeasured index changes what get returns: the
claim says get would still return the default estimate 120, but it returns
−5. -/
theorem C3_counterexample :
    invalidHeight (JSNum.num (-5)) = true ∧
    getItemSize (setItemSize (fun _ => none) 0 (JSNum.num (-5))) (JSNum.num 120) 0 ≠
      getItemSize (fun _ => none) (JSNum.num 120) 0 := by
  decide

/-- Claim C3 (amended): setItemSize performs no validation and stores any
value differing from the stored one under JS strict equality; after
setting an invalid height h at index i, get(i) returns the default
estimate when h is falsy (0 or NaN, coalesced by the lookup) and h itself
otherwise (negative or infinite heights). -/
theorem C3_amended (cache : ℕ → Option JSNum) (d : JSNum) (i : ℕ) (h : JSNum)
    (hinv : invalidHeight h = true) :
    getItemSize (setItemSize cache i h) d i =
      if h.isFalsy = true then d else h := by
  simp [getItemSize, setItemSize_get]

/-- Witness for the amended C3 at height −5 on an empty cache with default
120. -/
theorem C3_witness :
    invalidHeight (JSNum.num (-5)) = true ∧
    getItemSize (setItemSize (fun _ => none) 0 (JSNum.num (-5))) (JSNum.num 120) 0 =
      if (JSNum.num (-5)).isFalsy = true then JSNum.num 120 else JSNum.num (-5) :=
  ⟨by decide, C3_amended (fun _ => none) (JSNum.num 120) 0 (JSNum.num (-5)) (by decide)⟩

/-- Claim C10 (counterexample): a stored NaN is not returned as stored.
NaN is falsy in JS, so after storing NaN the lookup coalesces it to the
default estimate 120. -/
theorem C10_counterexample :
    getItemSize (setItemSize (fun _ => none) 0 JSNum.nan) (JSNum.num 120) 0 =
      JSNum.num 120 ∧
    getItemSize (setItemSize (fun _ => none) 0 JSNum.nan) (JSNum.num 120) 0 ≠
      JSNum.nan := by
  decide

/-- Claim C10 (amended): after storing 0 the lookup returns the default
estimate; after storing NaN (which the setter accepts, NaN being strictly
unequal to everything) the lookup likewise returns the default, NaN being
falsy; a stored negative height, by contrast, is returned as stored. -/
theorem C10_amended (cache : ℕ → Option JSNum) (d : JSNum) (i : ℕ) (q : ℚ)
    (hq : q < 0) :
    getItemSize (setItemSize cache i (JSNum.num 0)) d i = d ∧
    getItemSize (setItemSize cache i JSNum.nan) d i = d ∧
    getItemSize (setItemSize cache i (JSNum.num q)) d i = JSNum.num q := by
  refine ⟨?_, ?_, ?_⟩
  · simp [getItemSize, setItemSize_get, JSNum.isFalsy]
  · simp [getItemSize, setItemSize_get, JSNum.isFalsy]
  · have hf : (JSNum.num q).isFalsy = false := by
      simp [JSNum.isFalsy]
      exact ne_of_lt hq
    simp [getItemSize, setItemSize_get, hf]

/-- Witness for the amended C10 with negative height −5 on an empty cache
with default 120. -/
theorem C10_witness :
    (-5 : ℚ) < 0 ∧
    (getItemSize (setItemSize (fun _ => none) 0 (JSNum.num 0)) (JSNum.num 120) 0 =
        JSNum.num 120 ∧
      getItemSize (setItemSize (fun _ => none) 0 JSNum.nan) (JSNum.num 120) 0 =
        JSNum.num 120 ∧
      getItemSize (setItemSize (fun _ => none) 0 (JSNum.num (-5))) (JSNum.num 120) 0 =
        JSNum.num (-5)) :=
  ⟨by decide, C10_amended (fun _ => none) (JSNum.num 120) 0 (-5) (by decide)⟩

/-- Claim C2 (counterexample): starting pinned, an append followed by the
frame applying the programmatic scroll-to-bottom leaves the feed pinned
with the container at the target offset the engine chose; the scroll sample
that this programmatic scroll causes, at exactly that offset, is processed
by handleScroll and flips isUserScrolling to true, unpinning the feed. -/
theorem C2_counterexample :
    (run 600 120 initState [EngineEvent.append, EngineEvent.frameFire]).isUserScrolling =
      false ∧
    (run 600 120 initState [EngineEvent.append, EngineEvent.frameFire]).directives = [0] ∧
    (step 600 120 (run 600 120 initState [EngineEvent.append, EngineEvent.frameFire])
        (EngineEvent.scrollSample
          (run 600 120 initState
            [EngineEvent.append, EngineEvent.frameFire]).domScrollTop)).isUserScrolling =
      true := by
  decide

/-- Claim C2 (amended): the code performs no scroll-intent classification;
processing any scroll sample, including one caused by the programmatic
scroll-to-bottom of the engine itself, sets isUserScrolling to true. The feed only
re-pins later, when the settle timer fires within 10 px of the bottom. -/
theorem C2_amended (v d : ℤ) (st : EngineState) (sample : ℤ) :
    (step v d st (EngineEvent.scrollSample sample)).isUserScrolling = true := rfl

/-- Claim C4 (counterexample): starting pinned on an empty list, appending
one item and running the next frame applies a programmatic scroll directive
although no height report ever occurred: the appended item is still
unmeasured (cache entry absent), so the target was computed from the
default estimate. -/
theorem C4_counterexample :
    (run 600 120 initState [EngineEvent.append, EngineEvent.frameFire]).directives = [0] ∧
    (run 600 120 initState [EngineEvent.append, EngineEvent.frameFire]).cache 0 = none := by
  decide

/-- Claim C4 (amended): while pinned, an item-count increase immediately
schedules the programmatic scroll-to-bottom, before any height report; the
directive applied on the next frame targets max(0, totalHeight − viewport)
with totalHeight computed from the cache as it was at the append, in which
a not-yet-reported item still carries the default estimate. -/
theorem C4_amended (v d : ℤ) (st : EngineState) (hpin : st.isUserScrolling = false) :
    (step v d st EngineEvent.append).autoScrollPending = true ∧
    (step v d (step v d st EngineEvent.append) EngineEvent.frameFire).directives =
      st.directives ++ [max 0 (totalHeight (qGetItemSize st.cache d) (st.n + 1) - v)] := by
  constructor
  · simp [step, hpin]
  · cases hr : st.rafPending <;> simp [step, hpin, hr]

/-- Witness for the amended C4 at the freshly mounted state. -/
theorem C4_witness :
    initState.isUserScrolling = false ∧
    ((step 600 120 initState EngineEvent.append).autoScrollPending = true ∧
      (step 600 120 (step 600 120 initState EngineEvent.append)
          EngineEvent.frameFire).directives =
        [] ++ [max 0 (totalHeight (qGetItemSize (fun _ => none) 120) (0 + 1) - 600)]) :=
  ⟨rfl, C4_amended 600 120 initState rfl⟩

/-- Claim C5: starting unpinned, appending one item and then reporting its
height issues no scroll directive and leaves both the container scroll
position and the scroll state unchanged, even after the next frame runs. -/
theorem C5_no_directive_unpinned (v d : ℤ) (st : EngineState) (h : ℤ)
    (hun : st.isUserScrolling = true) (hnp : st.autoScrollPending = false)
    (hraf : st.rafPending = none) :
    (run v d st
        [EngineEvent.append, EngineEvent.report st.n h, EngineEvent.frameFire]).directives =
      st.directives ∧
    (run v d st
        [EngineEvent.append, EngineEvent.report st.n h, EngineEvent.frameFire]).domScrollTop =
      st.domScrollTop ∧
    (run v d st
        [EngineEvent.append, EngineEvent.report st.n h, EngineEvent.frameFire]).scrollTop =
      st.scrollTop ∧
    (run v d st
        [EngineEvent.append, EngineEvent.report st.n h,
          EngineEvent.frameFire]).autoScrollPending = false := by
  simp [run, step, hun, hnp, hraf]

/-- Witness for C5 at a freshly mounted state that has been unpinned. -/
theorem C5_witness :
    ({ initState with isUserScrolling := true } : EngineState).isUserScrolling = true ∧
    ((run 600 120 { initState with isUserScrolling := true }
        [EngineEvent.append, EngineEvent.report 0 50, EngineEvent.frameFire]).directives =
      [] ∧
    (run 600 120 { initState with isUserScrolling := true }
        [EngineEvent.append, EngineEvent.report 0 50, EngineEvent.frameFire]).domScrollTop =
      0 ∧
    (run 600 120 { initState with isUserScrolling := true }
        [EngineEvent.append, EngineEvent.report 0 50, EngineEvent.frameFire]).scrollTop =
      0 ∧
    (run 600 120 { initState with isUserScrolling := true }
        [EngineEvent.append, EngineEvent.report 0 50,
          EngineEvent.frameFire]).autoScrollPending = false) :=
  ⟨rfl, C5_no_directive_unpinned 600 120 { initState with isUserScrolling := true } 50
    rfl rfl rfl⟩

/-- Claim C6 (counterexample): two scroll samples 1 and 2 arriving within
one frame: the frame applies the value 1, the first sample of the frame,
not the most recent sample 2 as the claim states. -/
theorem C6_counterexample :
    (rafFrameFire (rafThrottleCall (rafThrottleCall (⟨none, []⟩ : RafState ℤ) 1)
        2)).applied = [1] ∧
    (rafFrameFire (rafThrottleCall (rafThrottleCall (⟨none, []⟩ : RafState ℤ) 1)
        2)).applied ≠ [2] := by
  decide

/-- Once a frame is scheduled, further calls to the throttled function do
nothing. -/
theorem foldl_rafThrottleCall_scheduled {α : Type} (y : α) :
    ∀ (xs : List α) (st : RafState α), st.rafId = some y →
      List.foldl rafThrottleCall st xs = st := by
  intro xs
  induction xs with
  | nil => intro st _; rfl
  | cons z zs ih =>
      intro st hid
      simp only [List.foldl_cons]
      rw [show rafThrottleCall st z = st from by simp [rafThrottleCall, hid]]
      exact ih st hid

/-- Claim C6 (amended): for any batch of samples arriving within one frame
starting from an idle throttle, exactly one update is applied when the
frame fires, and the value applied is the first sample of the batch; the
later samples are dropped, not coalesced. -/
theorem C6_amended {α : Type} (st : RafState α) (x : α) (xs : List α)
    (hid : st.rafId = none) :
    (rafFrameFire (List.foldl rafThrottleCall st (x :: xs))).applied =
      st.applied ++ [x] ∧
    (rafFrameFire (List.foldl rafThrottleCall st (x :: xs))).applied.length =
      st.applied.length + 1 := by
  have h1 : rafThrottleCall st x = { st with rafId := some x } := by
    simp [rafThrottleCall, hid]
  have h2 : List.foldl rafThrottleCall st (x :: xs) = { st with rafId := some x } := by
    simp only [List.foldl_cons, h1]
    exact foldl_rafThrottleCall_scheduled x xs _ rfl
  rw [h2]
  constructor
  · simp [rafFrameFire]
  · simp [rafFrameFire]

/-- Witness for the amended C6 with the sample batch 1, 2. -/
theorem C6_witness :
    (⟨none, []⟩ : RafState ℤ).rafId = none ∧
    ((rafFrameFire (List.foldl rafThrottleCall (⟨none, []⟩ : RafState ℤ) [1, 2])).applied =
        [] ++ [1] ∧
      (rafFrameFire (List.foldl rafThrottleCall (⟨none, []⟩ : RafState ℤ)
          [1, 2])).applied.length = ([] : List ℤ).length + 1) :=
  ⟨rfl, C6_amended ⟨none, []⟩ 1 [2] rfl⟩
